import Mathlib

/-!
# A verification development for `aco2gpl.c`

`aco2gpl.c` converts a Photoshop ACO color-swatch file, read from standard
input, into a GIMP GPL palette written to standard output.  This file embeds
the program shallowly in Lean: the bytes remaining on standard input are a
`List Nat` (each byte a value `0..255`, stored through `unsigned char`, hence
the `% 256` where bytes enter words), and every C function becomes a Lean
function over that explicit stream.

One subtlety of the C is modelled with an extra parameter.  `readword` calls
`fread(buf, 1, 2, fp)` and only treats `retval == 0` as end of file.  When
exactly one byte remains, `fread` returns `1`, stores that byte in `buf[0]`
and leaves `buf[1]` with its previous, indeterminate content; the function
then assembles and returns a word from the read byte and that indeterminate
byte.  The model threads a `junk : Nat` parameter standing for the
indeterminate `buf[1]`, so theorems can quantify over it.

`exit(1)` paths are modelled with `Except Fatal`; the `Fatal` value records
which diagnostic the program printed to stderr before exiting.  Allocation
(`acomalloc`) is modelled by feasibility of the requested byte count: the
color-array request `sizeof(struct acoentry) * aco->len` converts the C
`int` length to `size_t`, so a negative length wraps to a request above
`PTRDIFF_MAX` that no allocator can satisfy — `acomalloc` then prints
"Out of memory!" and exits 1 — while feasible requests (`len` is at most
65535, so at most about 1 MiB here) are assumed to succeed, as is the
small fixed-size `sizeof(struct aco)` request.
-/

/-- The fatal conditions on which the program calls `exit(1)` after printing
a diagnostic to the error stream.  `unexpectedEof` is `mustreadword`'s
"Unexpected end of file!"; `unknownVersion v` is `readaco`'s
"Unknown ACO file version %d. Exiting..."; `outOfMemory` is `acomalloc`'s
"Out of memory!" on an unsatisfiable `malloc` request. -/
inductive Fatal where
  | unexpectedEof : Fatal
  | unknownVersion : Int → Fatal
  | outOfMemory : Fatal
deriving Repr, DecidableEq

/-- `struct acoentry`: one palette color.  `name = none` models a NULL
`char *name`; `name = some bytes` models a NUL-terminated heap string whose
content is `bytes`. -/
structure acoentry where
  r : Nat
  g : Nat
  b : Nat
  name : Option (List Nat)
deriving Repr, DecidableEq

/-- `struct aco`.  `color` is the `malloc`ed array of `len` slots: `none`
marks a slot the parser never assigned (uninitialized memory), `some e` a
slot written with entry `e`.  `len` and `ver` are C `int`s. -/
structure aco where
  ver : Int
  len : Int
  color : List (Option acoentry)
deriving Repr, DecidableEq

/-- `readword`: reads a 16-bit big-endian word, returning it as a
non-negative `Int`, or `-1` when `fread` returns `0` (end of stream).
With exactly one byte remaining `fread` returns `1`, the `retval == 0`
test fails, and the result mixes the read byte with the indeterminate
`buf[1]`, modelled by `junk`.  The second component is the stream after
the bytes `fread` consumed. -/
def readword (junk : Nat) : List Nat → Int × List Nat
  | [] => (-1, [])
  | [b0] => (Int.ofNat ((b0 % 256) * 256 + junk % 256), [])
  | b0 :: b1 :: rest => (Int.ofNat ((b0 % 256) * 256 + b1 % 256), rest)

/-- `mustreadword`: `readword`, but `exit(1)` with "Unexpected end of
file!" when `readword` returns `-1`. -/
def mustreadword (junk : Nat) (s : List Nat) : Except Fatal (Nat × List Nat) :=
  let p := readword junk s
  if p.1 = -1 then .error .unexpectedEof else .ok (p.1.toNat, p.2)

/-- The `for (j = 0; j < n; j++) mustreadword(fp);` discard loops of
`convertcolor` (the 4 colorspace words and the unused name words of a
skipped record). -/
def skipwords (junk : Nat) : Nat → List Nat → Except Fatal (List Nat)
  | 0, s => .ok s
  | n + 1, s =>
    match mustreadword junk s with
    | .error e => .error e
    | .ok (_, s₁) => skipwords junk n s₁

/-- The name loop of `convertcolor`: `while(namelen > 0)` reads one word
per iteration, replaces values above `0xff` by a space, and appends the
byte to the buffer only while `buflen > 1` (keeping one byte for the NUL
terminator).  The first argument is the remaining iteration count (the C
`namelen` after its decrement), the second the remaining `buflen`; the
result is the list of bytes stored in the buffer and the stream after the
loop. -/
def readname (junk : Nat) : Nat → Nat → List Nat → Except Fatal (List Nat × List Nat)
  | 0, _, s => .ok ([], s)
  | n + 1, buflen, s =>
    match mustreadword junk s with
    | .error e => .error e
    | .ok (c, s₁) =>
      let c := if 255 < c then 32 else c
      if 1 < buflen then
        match readname junk n (buflen - 1) s₁ with
        | .error e => .error e
        | .ok (bytes, s₂) => .ok (c :: bytes, s₂)
      else
        match readname junk n buflen s₁ with
        | .error e => .error e
        | .ok (bytes, s₂) => .ok (bytes, s₂)

/-- Result of `convertcolor`: `skipped cspace` models `return 1` after the
stderr diagnostic "Non RGB color (colorspace %d) skipped" naming the
discriminator `cspace`; `converted r g b name` models `return 0` with the
pass-by-reference outputs populated (`name` is the buffer content for a
version-2 record; for a version-1 record the buffer is never written and
the `converted` carries `[]`, which the caller ignores for version 1). -/
inductive ConvResult where
  | skipped : Nat → ConvResult
  | converted : Nat → Nat → Nat → List Nat → ConvResult
deriving Repr, DecidableEq

/-- `convertcolor`: reads one color record of the given version from the
stream.  Mirrors the C control flow: a non-zero colorspace discriminator
discards 4 words (plus, for version 2, one word, a name length and that
many words) and reports `skipped`; discriminator 0 reads the R, G, B words
(each divided by 256), a discarded word, and — unless the version is 1 —
one discarded word, the name length, the name loop and a final discarded
terminator word. -/
def convertcolor (junk : Nat) (ver : Int) (buflen : Nat) (s : List Nat) :
    Except Fatal (ConvResult × List Nat) :=
  match mustreadword junk s with
  | .error e => .error e
  | .ok (cspace, s₁) =>
    if cspace ≠ 0 then
      match skipwords junk 4 s₁ with
      | .error e => .error e
      | .ok s₂ =>
        if ver = 2 then
          match mustreadword junk s₂ with
          | .error e => .error e
          | .ok (_, s₃) =>
            match mustreadword junk s₃ with
            | .error e => .error e
            | .ok (namelen, s₄) =>
              match skipwords junk namelen s₄ with
              | .error e => .error e
              | .ok s₅ => .ok (.skipped cspace, s₅)
        else .ok (.skipped cspace, s₂)
    else
      match mustreadword junk s₁ with
      | .error e => .error e
      | .ok (wr, s₂) =>
      match mustreadword junk s₂ with
      | .error e => .error e
      | .ok (wg, s₃) =>
      match mustreadword junk s₃ with
      | .error e => .error e
      | .ok (wb, s₄) =>
      match mustreadword junk s₄ with
      | .error e => .error e
      | .ok (_, s₅) =>
        if ver = 1 then .ok (.converted (wr / 256) (wg / 256) (wb / 256) [], s₅)
        else
          match mustreadword junk s₅ with
          | .error e => .error e
          | .ok (_, s₆) =>
          match mustreadword junk s₆ with
          | .error e => .error e
          | .ok (namelen, s₇) =>
          match readname junk (namelen - 1) buflen s₇ with
          | .error e => .error e
          | .ok (nm, s₈) =>
          match mustreadword junk s₈ with
          | .error e => .error e
          | .ok (_, s₉) => .ok (.converted (wr / 256) (wg / 256) (wb / 256) nm, s₉)

/-- The `for (j = 0; j < colors; j++)` loop of `readaco`, producing the
`color` array slot by slot.  A `skipped` record leaves its slot
unassigned (`continue`), modelled by `none`; a `converted` record stores
`r`, `g`, `b` into the slot's `unsigned char` fields (hence `% 256`) and
sets `name` to NULL, overwritten by `strdup` of the buffer when the
version is 2.  The `buflen` at the call site is 256 (`char name[256]`). -/
def readcolors (junk : Nat) (ver : Int) : Nat → List Nat → Except Fatal (List (Option acoentry) × List Nat)
  | 0, s => .ok ([], s)
  | n + 1, s =>
    match convertcolor junk ver 256 s with
    | .error e => .error e
    | .ok (.skipped _, s₁) =>
      match readcolors junk ver n s₁ with
      | .error e => .error e
      | .ok (slots, s₂) => .ok (none :: slots, s₂)
    | .ok (.converted r g b nm, s₁) =>
      match readcolors junk ver n s₁ with
      | .error e => .error e
      | .ok (slots, s₂) =>
        .ok (some ⟨r % 256, g % 256, b % 256, if ver = 2 then some nm else none⟩ :: slots, s₂)

/-- Width of `size_t` on the modelled LP64 platform. -/
def sizetBits : Nat := 64

/-- `sizeof(struct acoentry)` under LP64: the three `unsigned char`
channels, padding, and the 8-byte `name` pointer. -/
def sizeofAcoentry : Nat := 16

/-- The `size_t` byte count of `acomalloc(sizeof(struct acoentry)*aco->len)`
(line 179): the `int` operand converts to `size_t`, i.e. is taken modulo
`2 ^ sizetBits` (so `len = -1` becomes `2 ^ 64 - 1`), and the product is
reduced the same way. -/
def colorBytes (len : Int) : Nat :=
  (sizeofAcoentry * (len % ((2 : Int) ^ sizetBits)).toNat) % 2 ^ sizetBits

/-- Whether a `malloc` request can be satisfied at all: every real
allocator refuses requests above `PTRDIFF_MAX = 2 ^ (sizetBits - 1) - 1`
(they exceed the address space); the model assumes feasible requests
succeed. -/
def mallocOk (size : Nat) : Bool := size < 2 ^ (sizetBits - 1)

/-- `readaco`: reads one record set.  The version word is read with the
non-fatal `readword`; `-1` (initial end of file) yields `none` (the C
returns NULL).  A version other than 1 or 2 is fatal.  The color count is
also read with the non-fatal `readword` and stored as-is in `len` (it is
`-1` if the stream ended after the version word).  The fixed-size
`acomalloc(sizeof(*aco))` is assumed to succeed; the color-array
`acomalloc(sizeof(struct acoentry)*aco->len)` fails — "Out of memory!",
`exit(1)` — when the wrapped `size_t` request is unsatisfiable, which is
exactly the `len = -1` case, and is assumed to succeed otherwise (at most
about 1 MiB).  Past the allocations, the loop bound `j < colors` on C
`int`s runs `colors.toNat` iterations. -/
def readaco (junk : Nat) (s : List Nat) : Except Fatal (Option aco × List Nat) :=
  let p := readword junk s
  if p.1 = -1 then .ok (none, p.2)
  else if p.1 = 1 ∨ p.1 = 2 then
    let q := readword junk p.2
    if mallocOk (colorBytes q.1) then
      match readcolors junk p.1 q.1.toNat q.2 with
      | .error e => .error e
      | .ok (slots, s₂) => .ok (some ⟨p.1, q.1, slots⟩, s₂)
    else .error .outOfMemory
  else .error (.unknownVersion p.1)

/-- `main`'s two `readaco` calls and its selection between them: the result
is the palette passed to `gengpl` (`aco2` if non-NULL, else `aco1`), or
`none` when both calls returned NULL (the "No data!" case). -/
def runmain (junk : Nat) (s : List Nat) : Except Fatal (Option aco) :=
  match readaco junk s with
  | .error e => .error e
  | .ok (a1, s₁) =>
    match readaco junk s₁ with
    | .error e => .error e
    | .ok (a2, _) =>
      .ok (match a2 with
           | some a => some a
           | none => a1)

/-- The process exit status: `exit(1)` on any modelled fatal condition,
otherwise `main` returns 0 (also in the "No data!" case). -/
def mainExit (junk : Nat) (s : List Nat) : Nat :=
  match runmain junk s with
  | .error _ => 1
  | .ok _ => 0

/-- The palette passed on for output: `some a` means `gengpl(a)` runs,
`none` means the "No data!" diagnostic is printed and no palette body is
emitted. -/
def mainPalette (junk : Nat) (s : List Nat) : Except Fatal (Option aco) :=
  runmain junk s

/-- One line of the program's standard output.  `text` is a fixed header
line; `color r g b name` is one `printf("\n%d %d %d %s", r, g, b, name)`
entry line, carrying the exact `name` pointer handed to `%s` (`none` for a
NULL pointer, whose formatting C leaves undefined); `indeterminate` is a
line produced by reading an unassigned (uninitialized) array slot. -/
inductive OutLine where
  | text : String → OutLine
  | color : Nat → Nat → Nat → Option (List Nat) → OutLine
  | indeterminate : OutLine
deriving Repr, DecidableEq

/-- The fixed output of `printf("GIMP Palette\nName: Untitled\nColumns: 16\n#")`,
split at the newlines: the three header lines and the comment-marker line. -/
def gengplHeader : List OutLine :=
  [.text "GIMP Palette", .text "Name: Untitled", .text "Columns: 16", .text "#"]

/-- Reading `aco->color[i]`: the slot's content, `none` when the slot was
never assigned (and, vacuously, out of range — `gengpl` only indexes below
`len`, which matches the allocated length). -/
def slotAt (color : List (Option acoentry)) (i : Nat) : Option acoentry :=
  (color.get? i).getD none

/-- The line `gengpl` prints for `aco->color[i]`. -/
def emitLine (color : List (Option acoentry)) (i : Nat) : OutLine :=
  match slotAt color i with
  | none => .indeterminate
  | some e => .color e.r e.g e.b e.name

/-- The inner `for (i = 0; i < cols; i++)` loop of `gengpl` with
`cols = 4`: the first argument counts the remaining iterations
(`cols - i`), `i` is the loop counter; the body breaks when
`j + i == aco->len` and otherwise prints the line for index `j + i`. -/
def gengplRow (color : List (Option acoentry)) (len j : Nat) : Nat → Nat → List OutLine
  | 0, _ => []
  | k + 1, i =>
    if j + i = len then []
    else emitLine color (j + i) :: gengplRow color len j k (i + 1)

/-- The outer `for (j = 0; j < aco->len; j += cols)` loop of `gengpl`
(`cols = 4`).  `len` is `aco->len.toNat`: for a non-positive `len` the C
loop never runs, and for a positive one the `int` comparisons agree with
the `Nat` ones. -/
def gengplOuter (color : List (Option acoentry)) (len j : Nat) : List OutLine :=
  if j < len then gengplRow color len j 4 0 ++ gengplOuter color len (j + 4) else []
termination_by len - j
decreasing_by omega

/-- `gengpl`: the whole standard-output of the program for palette `a`,
as a list of lines. -/
def gengplOutput (a : aco) : List OutLine :=
  gengplHeader ++ gengplOuter a.color a.len.toNat 0

/-- The emitter as the specification words it: after the header and the
comment marker, a single sequential loop emitting exactly one line per
entry, in palette order. -/
def gengplSeq (a : aco) : List OutLine :=
  gengplHeader ++ (List.range a.len.toNat).map (emitLine a.color)

/-! ## Encoding well-formed inputs

The theorems below quantify over record sets through an explicit encoder:
a word is two big-endian bytes, a record is its words in the stream order
`convertcolor` reads them. -/

/-- Big-endian encoding of a 16-bit word as two bytes. -/
def encodeWord (w : Nat) : List Nat := [w / 256, w % 256]

/-- Concatenated encoding of a list of words. -/
def encodeWords (ws : List Nat) : List Nat := (ws.map encodeWord).flatten

/-- Description of one well-formed RGB color record: the R, G, B and Z
words; for version 2 additionally the word of unknown purpose `wx`, the
name's UTF-16 code units (the declared name length is `units.length + 1`,
counting the terminator) and the trailing terminator word `wt`. -/
structure rgbrec where
  wr : Nat
  wg : Nat
  wb : Nat
  wz : Nat
  wx : Nat
  units : List Nat
  wt : Nat
deriving Repr, DecidableEq

/-- Every word of the record fits in 16 bits. -/
def rgbrec.valid (rec : rgbrec) : Prop :=
  rec.wr < 65536 ∧ rec.wg < 65536 ∧ rec.wb < 65536 ∧ rec.wz < 65536 ∧
  rec.wx < 65536 ∧ rec.wt < 65536 ∧ (∀ u ∈ rec.units, u < 65536) ∧
  rec.units.length + 1 < 65536

instance (rec : rgbrec) : Decidable rec.valid := by
  unfold rgbrec.valid; infer_instance

/-- The byte encoding of one well-formed RGB record (colorspace
discriminator 0 first; the version-2 name block only for version 2). -/
def encodeRec (ver : Int) (rec : rgbrec) : List Nat :=
  encodeWord 0 ++ encodeWord rec.wr ++ encodeWord rec.wg ++ encodeWord rec.wb ++
  encodeWord rec.wz ++
  (if ver = 2 then
    encodeWord rec.wx ++ encodeWord (rec.units.length + 1) ++
    encodeWords rec.units ++ encodeWord rec.wt
   else [])

/-- Concatenated encoding of a record list. -/
def encodeRecs (ver : Int) (recs : List rgbrec) : List Nat :=
  (recs.map (encodeRec ver)).flatten

/-- The decode of a single name unit: values above 255 become a space. -/
def substUnit (u : Nat) : Nat := if 255 < u then 32 else u

/-- The palette entry the parser builds from a well-formed RGB record:
each channel is the word divided by 256; the name is absent for version 1
and, for version 2, the decoded units truncated to the buffer's 255
usable bytes. -/
def toEntry (ver : Int) (rec : rgbrec) : acoentry :=
  ⟨rec.wr / 256, rec.wg / 256, rec.wb / 256,
   if ver = 2 then some ((rec.units.map substUnit).take 255) else none⟩

/-- The diagnosed fatal conditions: an unexpected end of the stream at a
structurally mandatory word, an unsatisfiable allocation, or a format
version other than 1 or 2. -/
def diagnosedFatal (e : Fatal) : Prop :=
  e = .unexpectedEof ∨ e = .outOfMemory ∨
    ∃ v, e = .unknownVersion v ∧ v ≠ 1 ∧ v ≠ 2

/-! ## Decoding lemmas for encoded streams -/

theorem readword_encode (junk w : Nat) (rest : List Nat) (h : w < 65536) :
    readword junk (encodeWord w ++ rest) = (Int.ofNat w, rest) := by
  simp only [encodeWord, List.cons_append, List.nil_append, readword]
  congr 1
  congr 1
  omega

theorem mustreadword_encode (junk w : Nat) (rest : List Nat) (h : w < 65536) :
    mustreadword junk (encodeWord w ++ rest) = .ok (w, rest) := by
  simp [mustreadword, readword_encode junk w rest h]

theorem skipwords_encode (junk : Nat) (ws : List Nat) (rest : List Nat)
    (h : ∀ w ∈ ws, w < 65536) :
    skipwords junk ws.length (encodeWords ws ++ rest) = .ok rest := by
  induction ws with
  | nil => simp [encodeWords, skipwords]
  | cons w ws ih =>
    have hw : w < 65536 := h w (List.mem_cons_self w ws)
    simp only [encodeWords, List.map_cons, List.flatten_cons, List.length_cons,
      List.append_assoc, skipwords,
      mustreadword_encode junk w ((ws.map encodeWord).flatten ++ rest) hw]
    exact ih fun u hu => h u (List.mem_cons_of_mem w hu)

theorem readname_encode (junk : Nat) (units : List Nat) (buflen : Nat) (rest : List Nat)
    (h : ∀ u ∈ units, u < 65536) :
    readname junk units.length buflen (encodeWords units ++ rest) =
      .ok ((units.map substUnit).take (buflen - 1), rest) := by
  induction units generalizing buflen with
  | nil => simp [encodeWords, readname]
  | cons u units ih =>
    have hu : u < 65536 := h u (List.mem_cons_self u units)
    have hrec := fun b => ih b fun v hv => h v (List.mem_cons_of_mem u hv)
    simp only [encodeWords, List.map_cons, List.flatten_cons, List.length_cons,
      List.append_assoc, readname,
      mustreadword_encode junk u ((units.map encodeWord).flatten ++ rest) hu]
    simp only [encodeWords] at hrec
    by_cases hb : 1 < buflen
    · simp only [if_pos hb, hrec (buflen - 1)]
      rw [show buflen - 1 = (buflen - 2) + 1 from by omega]
      simp [substUnit, Nat.add_sub_cancel]
    · simp only [if_neg hb, hrec buflen]
      have h0 : buflen - 1 = 0 := by omega
      simp [h0]

theorem convertcolor_rgb (junk : Nat) (ver : Int) (buflen : Nat) (rec : rgbrec)
    (rest : List Nat) (hver : ver = 1 ∨ ver = 2) (hv : rec.valid) :
    convertcolor junk ver buflen (encodeRec ver rec ++ rest) =
      .ok (.converted (rec.wr / 256) (rec.wg / 256) (rec.wb / 256)
            (if ver = 2 then (rec.units.map substUnit).take (buflen - 1) else []), rest) := by
  obtain ⟨h1, h2, h3, h4, h5, h6, h7, h8⟩ := hv
  rcases hver with hver | hver <;> subst hver
  · simp [convertcolor, encodeRec, List.append_assoc, mustreadword_encode,
      h1, h2, h3, h4]
  · simp [convertcolor, encodeRec, List.append_assoc, mustreadword_encode,
      h1, h2, h3, h4, h5, h6, h8]
    rw [readname_encode junk rec.units buflen (encodeWord rec.wt ++ rest) h7]
    simp [mustreadword_encode, h6]

theorem convertcolor_skip1 (junk : Nat) (buflen cspace : Nat) (ws : List Nat)
    (rest : List Nat) (hc0 : cspace ≠ 0) (hc : cspace < 65536) (hlen : ws.length = 4)
    (hws : ∀ w ∈ ws, w < 65536) :
    convertcolor junk 1 buflen (encodeWord cspace ++ encodeWords ws ++ rest) =
      .ok (.skipped cspace, rest) := by
  simp only [convertcolor, List.append_assoc,
    mustreadword_encode junk cspace _ hc]
  rw [if_pos hc0, ← hlen, skipwords_encode junk ws rest hws]
  norm_num

theorem convertcolor_skip2 (junk : Nat) (buflen cspace : Nat) (ws : List Nat)
    (wx : Nat) (units : List Nat) (rest : List Nat) (hc0 : cspace ≠ 0)
    (hc : cspace < 65536) (hlen : ws.length = 4) (hws : ∀ w ∈ ws, w < 65536)
    (hx : wx < 65536) (hn : units.length < 65536) (hus : ∀ u ∈ units, u < 65536) :
    convertcolor junk 2 buflen
        (encodeWord cspace ++ encodeWords ws ++ encodeWord wx ++
         encodeWord units.length ++ encodeWords units ++ rest) =
      .ok (.skipped cspace, rest) := by
  simp only [convertcolor, List.append_assoc,
    mustreadword_encode junk cspace _ hc]
  rw [if_pos hc0, ← hlen,
    skipwords_encode junk ws
      (encodeWord wx ++ (encodeWord units.length ++ (encodeWords units ++ rest))) hws]
  simp only [mustreadword_encode junk wx _ hx,
    mustreadword_encode junk units.length _ hn]
  rw [skipwords_encode junk units rest hus]
  norm_num

theorem readcolors_encode (junk : Nat) (ver : Int) (recs : List rgbrec) (rest : List Nat)
    (hver : ver = 1 ∨ ver = 2) (hv : ∀ rec ∈ recs, rec.valid) :
    readcolors junk ver recs.length (encodeRecs ver recs ++ rest) =
      .ok (recs.map (fun rec => some (toEntry ver rec)), rest) := by
  induction recs with
  | nil => simp [encodeRecs, readcolors]
  | cons rec recs ih =>
    have hrec : rec.valid := hv rec (List.mem_cons_self rec recs)
    obtain ⟨h1, h2, h3, h4, h5, h6, h7, h8⟩ := hrec
    have hr : rec.wr / 256 % 256 = rec.wr / 256 := Nat.mod_eq_of_lt (by omega)
    have hg : rec.wg / 256 % 256 = rec.wg / 256 := Nat.mod_eq_of_lt (by omega)
    have hb : rec.wb / 256 % 256 = rec.wb / 256 := Nat.mod_eq_of_lt (by omega)
    simp only [encodeRecs, List.map_cons, List.flatten_cons, List.length_cons,
      List.append_assoc, readcolors,
      convertcolor_rgb junk ver 256 rec _ hver ⟨h1, h2, h3, h4, h5, h6, h7, h8⟩]
    have ih2 := ih fun r hrm => hv r (List.mem_cons_of_mem rec hrm)
    simp only [encodeRecs] at ih2
    rw [ih2]
    rcases hver with hver | hver <;> subst hver <;>
      simp [toEntry, hr, hg, hb]

theorem mallocOk_small (n : Nat) (h : n < 65536) :
    mallocOk (colorBytes (Int.ofNat n)) = true := by
  unfold mallocOk colorBytes sizetBits sizeofAcoentry
  simp only [Int.ofNat_eq_natCast, decide_eq_true_eq]
  have hpow : (2 : Int) ^ 64 = 18446744073709551616 := by norm_num
  rw [hpow]
  have h1 : ((n : Int) % 18446744073709551616).toNat = n := by omega
  rw [h1]
  have hpow2 : (2 : Nat) ^ 64 = 18446744073709551616 := by norm_num
  have hpow3 : (2 : Nat) ^ (64 - 1) = 9223372036854775808 := by norm_num
  rw [hpow2, hpow3]
  omega

theorem readaco_encode (junk ver : Nat) (recs : List rgbrec)
    (hver : ver = 1 ∨ ver = 2) (hcount : recs.length < 65536)
    (hv : ∀ rec ∈ recs, rec.valid) :
    readaco junk (encodeWord ver ++ encodeWord recs.length ++
        encodeRecs (Int.ofNat ver) recs) =
      .ok (some ⟨Int.ofNat ver, Int.ofNat recs.length,
                 recs.map (fun rec => some (toEntry (Int.ofNat ver) rec))⟩, []) := by
  have hver16 : ver < 65536 := by rcases hver with h | h <;> omega
  have hverI : (Int.ofNat ver) = 1 ∨ (Int.ofNat ver) = 2 := by
    rcases hver with h | h <;> subst h <;> [left; right] <;> rfl
  simp only [readaco, List.append_assoc, readword_encode junk ver _ hver16,
    readword_encode junk recs.length (encodeRecs (Int.ofNat ver) recs) hcount]
  have hne : ¬(Int.ofNat ver = -1) := by rcases hver with h | h <;> subst h <;> decide
  rw [if_neg hne, if_pos hverI]
  have hcols := readcolors_encode junk (Int.ofNat ver) recs [] hverI hv
  rw [show (Int.ofNat recs.length).toNat = recs.length from rfl,
    show encodeRecs (Int.ofNat ver) recs = encodeRecs (Int.ofNat ver) recs ++ [] from
      (List.append_nil _).symm, hcols, if_pos (mallocOk_small recs.length hcount)]

/-! ## Which fatal conditions can actually arise -/

theorem mustreadword_error (junk : Nat) (s : List Nat) (e : Fatal)
    (h : mustreadword junk s = .error e) : e = .unexpectedEof := by
  unfold mustreadword at h
  dsimp only at h
  split at h
  · cases h; rfl
  · simp at h

theorem skipwords_error (junk : Nat) (n : Nat) (s : List Nat) (e : Fatal)
    (h : skipwords junk n s = .error e) : e = .unexpectedEof := by
  induction n generalizing s with
  | zero => simp [skipwords] at h
  | succ n ih =>
    unfold skipwords at h
    repeat split at h
    all_goals first
      | (cases h; exact mustreadword_error _ _ _ (by assumption))
      | (exact ih _ h)

theorem readname_error (junk : Nat) (n buflen : Nat) (s : List Nat) (e : Fatal)
    (h : readname junk n buflen s = .error e) : e = .unexpectedEof := by
  induction n generalizing buflen s with
  | zero => simp [readname] at h
  | succ n ih =>
    unfold readname at h
    dsimp only at h
    split at h
    · cases h; exact mustreadword_error _ _ _ (by assumption)
    · split at h <;> split at h <;>
        first
          | (cases h; exact ih _ _ (by assumption))
          | simp at h

theorem convertcolor_error (junk : Nat) (ver : Int) (buflen : Nat) (s : List Nat)
    (e : Fatal) (h : convertcolor junk ver buflen s = .error e) :
    e = .unexpectedEof := by
  unfold convertcolor at h
  repeat' split at h
  all_goals first
    | (cases h; first
        | exact mustreadword_error _ _ _ (by assumption)
        | exact skipwords_error _ _ _ _ (by assumption)
        | exact readname_error _ _ _ _ _ (by assumption))
    | simp at h

theorem readcolors_error (junk : Nat) (ver : Int) (n : Nat) (s : List Nat) (e : Fatal)
    (h : readcolors junk ver n s = .error e) : e = .unexpectedEof := by
  induction n generalizing s with
  | zero => simp [readcolors] at h
  | succ n ih =>
    unfold readcolors at h
    repeat' split at h
    all_goals first
      | (cases h; first
          | exact convertcolor_error _ _ _ _ _ (by assumption)
          | exact ih _ (by assumption))
      | simp at h

theorem readaco_error (junk : Nat) (s : List Nat) (e : Fatal)
    (h : readaco junk s = .error e) : diagnosedFatal e := by
  unfold readaco at h
  dsimp only at h
  repeat' split at h
  all_goals first
    | (cases h; left; exact readcolors_error _ _ _ _ _ (by assumption))
    | (cases h; right; left; rfl)
    | (cases h; right; right; exact ⟨(readword junk s).1, rfl, by tauto, by tauto⟩)
    | simp at h

theorem runmain_error (junk : Nat) (s : List Nat) (e : Fatal)
    (h : runmain junk s = .error e) : diagnosedFatal e := by
  unfold runmain at h
  repeat' split at h
  all_goals first
    | (cases h; exact readaco_error _ _ _ (by assumption))
    | simp at h

/-! ## The `gengpl` loops emit one line per index, in order -/

theorem gengplRow_eq (color : List (Option acoentry)) (len j : Nat) :
    ∀ k i, j + i ≤ len →
      gengplRow color len j k i =
        (List.range' (j + i) (min k (len - (j + i)))).map (emitLine color) := by
  intro k
  induction k with
  | zero => intro i hle; simp [gengplRow]
  | succ k ih =>
    intro i hle
    rw [gengplRow]
    by_cases hbreak : j + i = len
    · rw [if_pos hbreak]
      have h0 : len - (j + i) = 0 := by omega
      simp [h0]
    · rw [if_neg hbreak]
      have h1 : min (k + 1) (len - (j + i)) = min k (len - (j + (i + 1))) + 1 := by omega
      rw [h1, List.range'_succ, List.map_cons, ih (i + 1) (by omega)]
      have h2 : j + i + 1 = j + (i + 1) := by omega
      rw [h2]

theorem gengplOuter_eq (color : List (Option acoentry)) (len : Nat) :
    ∀ m j, len - j ≤ m →
      gengplOuter color len j = (List.range' j (len - j)).map (emitLine color) := by
  intro m
  induction m with
  | zero =>
    intro j hj
    rw [gengplOuter]
    have hnl : ¬ j < len := by omega
    have h0 : len - j = 0 := by omega
    simp [hnl, h0]
  | succ m ih =>
    intro j hj
    rw [gengplOuter]
    by_cases hlt : j < len
    · rw [if_pos hlt, gengplRow_eq color len j 4 0 (by omega), ih (j + 4) (by omega),
        ← List.map_append]
      congr 1
      rw [Nat.add_zero]
      by_cases hsmall : len - j ≤ 4
      · have hmin : min 4 (len - j) = len - j := by omega
        have h0 : len - (j + 4) = 0 := by omega
        simp [hmin, h0]
      · have hmin : min 4 (len - j) = 4 := by omega
        rw [hmin]
        have := List.range'_append j 4 (len - (j + 4)) 1
        simp only [Nat.one_mul] at this
        rw [this]
        congr 1
        omega
    · rw [if_neg hlt]
      have h0 : len - j = 0 := by omega
      simp [h0]

theorem gengplOutput_eq_seq (a : aco) : gengplOutput a = gengplSeq a := by
  unfold gengplOutput gengplSeq
  rw [gengplOuter_eq a.color a.len.toNat a.len.toNat 0 (by omega),
    List.range_eq_range']
  simp

/-! ## The claims -/

/-- Claim C4: for every well-formed input record set in which every color
record has colorspace discriminator 0 (RGB), the parsed palette holds
exactly the declared count of entries (every slot of the `color` array is
assigned), and each entry's `r`, `g` and `b` equal the corresponding
stream word divided by 256 with truncating division (`toEntry` is defined
by that division). -/
theorem c4_all_rgb_full_parse (junk ver : Nat) (recs : List rgbrec)
    (hver : ver = 1 ∨ ver = 2) (hcount : recs.length < 65536)
    (hv : ∀ rec ∈ recs, rec.valid) :
    readaco junk (encodeWord ver ++ encodeWord recs.length ++
        encodeRecs (Int.ofNat ver) recs) =
      .ok (some ⟨Int.ofNat ver, Int.ofNat recs.length,
                 recs.map (fun rec => some (toEntry (Int.ofNat ver) rec))⟩, []) ∧
    (recs.map (fun rec => some (toEntry (Int.ofNat ver) rec))).length = recs.length ∧
    ∀ rec ∈ recs, (toEntry (Int.ofNat ver) rec).r = rec.wr / 256 ∧
      (toEntry (Int.ofNat ver) rec).g = rec.wg / 256 ∧
      (toEntry (Int.ofNat ver) rec).b = rec.wb / 256 := by
  refine ⟨readaco_encode junk ver recs hver hcount hv, by simp, ?_⟩
  intro rec _
  exact ⟨rfl, rfl, rfl⟩

/-- Witness for C4: a version-1 set of one RGB record with words
`(0x1234, 0xFF00, 0x0080)` parses to the single entry `(18, 255, 0)`. -/
theorem c4_all_rgb_full_parse_witness :
    ((1 : Nat) = 1 ∨ (1 : Nat) = 2) ∧
    ([(⟨4660, 65280, 128, 7, 0, [], 0⟩ : rgbrec)] : List rgbrec).length < 65536 ∧
    (∀ rec ∈ ([(⟨4660, 65280, 128, 7, 0, [], 0⟩ : rgbrec)] : List rgbrec), rec.valid) ∧
    readaco 0 (encodeWord 1 ++ encodeWord 1 ++
        encodeRecs (Int.ofNat 1) [(⟨4660, 65280, 128, 7, 0, [], 0⟩ : rgbrec)]) =
      .ok (some ⟨Int.ofNat 1, Int.ofNat 1,
            [(⟨4660, 65280, 128, 7, 0, [], 0⟩ : rgbrec)].map
              (fun rec => some (toEntry (Int.ofNat 1) rec))⟩, []) :=
  ⟨Or.inl rfl, by decide, by decide,
   (c4_all_rgb_full_parse 0 1 [⟨4660, 65280, 128, 7, 0, [], 0⟩]
      (Or.inl rfl) (by decide) (by decide)).1⟩

/-- Claim C5: for every version-2 RGB record with declared name length
`L = units.length + 1 ≥ 1`, the parser decodes exactly `L - 1` name units
(one `substUnit` application per unit, a space for every unit above 255),
stores at most 255 bytes of the name in the 256-byte NUL-terminated
buffer, and still consumes all `L - 1` units plus the final terminator
word, leaving the cursor exactly at `rest`. -/
theorem c5_name_decode (junk : Nat) (rec : rgbrec) (rest : List Nat)
    (hv : rec.valid) :
    convertcolor junk 2 256 (encodeRec 2 rec ++ rest) =
      .ok (.converted (rec.wr / 256) (rec.wg / 256) (rec.wb / 256)
            ((rec.units.map substUnit).take 255), rest) ∧
    ((rec.units.map substUnit).take 255).length = min rec.units.length 255 ∧
    (rec.units.length ≤ 255 →
      (rec.units.map substUnit).take 255 = rec.units.map substUnit) := by
  refine ⟨?_, by simp [Nat.min_comm], fun hle => List.take_of_length_le (by simpa using hle)⟩
  have := convertcolor_rgb junk 2 256 rec rest (Or.inr rfl) hv
  simpa using this

/-- Witness for C5: a record whose name units are `[72, 300]` (declared
length 3) decodes to the two bytes `[72, 32]`: the unit 300 became a
space, and the cursor ends exactly past the terminator word. -/
theorem c5_name_decode_witness :
    (⟨4660, 65280, 128, 7, 9, [72, 300], 0⟩ : rgbrec).valid ∧
    convertcolor 0 2 256 (encodeRec 2 ⟨4660, 65280, 128, 7, 9, [72, 300], 0⟩ ++ []) =
      .ok (.converted 18 255 0 [72, 32], []) :=
  ⟨by decide, by
    have := (c5_name_decode 0 ⟨4660, 65280, 128, 7, 9, [72, 300], 0⟩ [] (by decide)).1
    simpa using this⟩

/-- Claim C8: a color record with non-zero colorspace discriminator is
reported `skipped cspace` (modelling the stderr diagnostic that names the
discriminator), no entry is produced, and the parser consumes exactly 4
further words in version 1; in version 2 it additionally consumes one
trailing word, one name-length word and that many further words — in both
cases the cursor ends exactly at the following record (`rest`). -/
theorem c8_non_rgb_skip (junk buflen cspace : Nat) (ws : List Nat) (wx : Nat)
    (units : List Nat) (rest₁ rest₂ : List Nat) (hc0 : cspace ≠ 0)
    (hc : cspace < 65536) (hlen : ws.length = 4) (hws : ∀ w ∈ ws, w < 65536)
    (hx : wx < 65536) (hn : units.length < 65536) (hus : ∀ u ∈ units, u < 65536) :
    convertcolor junk 1 buflen (encodeWord cspace ++ encodeWords ws ++ rest₁) =
      .ok (.skipped cspace, rest₁) ∧
    convertcolor junk 2 buflen (encodeWord cspace ++ encodeWords ws ++
        encodeWord wx ++ encodeWord units.length ++ encodeWords units ++ rest₂) =
      .ok (.skipped cspace, rest₂) :=
  ⟨convertcolor_skip1 junk buflen cspace ws rest₁ hc0 hc hlen hws,
   convertcolor_skip2 junk buflen cspace ws wx units rest₂ hc0 hc hlen hws hx hn hus⟩

/-- Witness for C8: an HSB record (discriminator 2) is skipped in both
versions, consuming its exact word count. -/
theorem c8_non_rgb_skip_witness :
    (2 : Nat) ≠ 0 ∧
    convertcolor 0 1 256 (encodeWord 2 ++ encodeWords [1, 2, 3, 4] ++ [9, 9]) =
      .ok (.skipped 2, [9, 9]) ∧
    convertcolor 0 2 256 (encodeWord 2 ++ encodeWords [1, 2, 3, 4] ++
        encodeWord 5 ++ encodeWord ([700, 800] : List Nat).length ++
        encodeWords [700, 800] ++ [7]) =
      .ok (.skipped 2, [7]) := by
  have h := c8_non_rgb_skip 0 256 2 [1, 2, 3, 4] 5 [700, 800] [9, 9] [7]
    (by decide) (by decide) (by decide) (by decide) (by decide) (by decide) (by decide)
  exact ⟨by decide, h.1, h.2⟩

/-- Counterexample to claim C10 as stated: at the exact input the claim
describes — a valid version word and nothing else — the program aborts
with "Out of memory!" and exit status 1 at the color-array allocation,
before the color loop, so `readaco` yields no palette at all, let alone
one with `len = -1` and an empty color array. -/
theorem c10_counterexample_oom_abort :
    readaco 0 (encodeWord 1) = .error Fatal.outOfMemory ∧
    readaco 0 (encodeWord 1) ≠ .ok (some ⟨1, -1, []⟩, []) := by
  refine ⟨rfl, fun hc => ?_⟩
  exact Except.noConfusion (rfl.symm.trans hc)

/-- Claim C10 as amended: the count is indeed read with the non-fatal
`readword` — the program emits no "Unexpected end of file!" and does not
abort at that read, and the count takes the end-of-stream value `-1` —
but the program then aborts with "Out of memory!" and exit status 1 at
the color-array allocation, whose size `sizeof(struct acoentry) * len`
wraps the negative count to an unsatisfiable `size_t` request; the
color-record loop is never reached and no palette is produced. -/
theorem c10_count_eof_oom (junk ver : Nat) (hver : ver = 1 ∨ ver = 2) :
    readaco junk (encodeWord ver) = .error .outOfMemory ∧
    readaco junk (encodeWord ver) ≠ .error .unexpectedEof ∧
    (readword junk []).1 = -1 ∧
    mallocOk (colorBytes (readword junk []).1) = false := by
  have hv16 : ver < 65536 := by rcases hver with h | h <;> omega
  have hw : readword junk (encodeWord ver) = (Int.ofNat ver, []) := by
    have := readword_encode junk ver [] hv16
    simpa using this
  have hne : ¬(Int.ofNat ver = -1) := by
    rcases hver with h | h <;> subst h <;> decide
  have hver2 : Int.ofNat ver = 1 ∨ Int.ofNat ver = 2 := by
    rcases hver with h | h <;> subst h <;> [left; right] <;> rfl
  have hmain : readaco junk (encodeWord ver) = .error .outOfMemory := by
    unfold readaco
    rw [hw]
    dsimp only
    rw [if_neg hne, if_pos hver2]
    simp only [readword]
    rw [if_neg (by decide)]
  refine ⟨hmain, fun hc => ?_, rfl,
    (by decide : mallocOk (colorBytes (-1)) = false)⟩
  rw [hmain] at hc
  exact Fatal.noConfusion ((Except.error.injEq _ _).mp hc)

/-- Witness for the amended C10: the two-byte stream `[0, 1]` (version 1,
then end of stream) makes the program abort with the out-of-memory
diagnostic. -/
theorem c10_count_eof_oom_witness :
    ((1 : Nat) = 1 ∨ (1 : Nat) = 2) ∧
    readaco 0 (encodeWord 1) = .error Fatal.outOfMemory :=
  ⟨Or.inl rfl, (c10_count_eof_oom 0 1 (Or.inl rfl)).1⟩

/-- Claim C6: `main` invokes `readaco` exactly twice, sequentially on the
stream; given the outcomes of the two invocations, the palette handed to
`gengpl` is the second one when the second call yields a palette, the
first one when only the first call does, and `none` (the "No data!"
diagnostic, with no palette body) when neither does. -/
theorem c6_second_set_preferred (junk : Nat) (s s₁ s₂ : List Nat)
    (a1 a2 : Option aco) (h1 : readaco junk s = .ok (a1, s₁))
    (h2 : readaco junk s₁ = .ok (a2, s₂)) :
    (∀ b, a2 = some b → mainPalette junk s = .ok (some b)) ∧
    (a2 = none → ∀ b, a1 = some b → mainPalette junk s = .ok (some b)) ∧
    (a2 = none → a1 = none → mainPalette junk s = .ok none) := by
  unfold mainPalette runmain
  rw [h1]
  dsimp only
  rw [h2]
  dsimp only
  refine ⟨fun b hb => by rw [hb], fun h2n b hb => by rw [h2n, hb],
    fun h2n h1n => by rw [h2n, h1n]⟩

/-- Witness for C6: a stream holding two one-color version-1 record sets;
the emitted palette is the second one (color `(2,2,2)`), not the first
(color `(1,1,1)`). -/
theorem c6_second_set_preferred_witness :
    readaco 0 [0, 1, 0, 1, 0, 0, 1, 0, 1, 0, 1, 0, 0, 0,
               0, 1, 0, 1, 0, 0, 2, 0, 2, 0, 2, 0, 0, 0] =
      .ok (some ⟨1, 1, [some ⟨1, 1, 1, none⟩]⟩,
           [0, 1, 0, 1, 0, 0, 2, 0, 2, 0, 2, 0, 0, 0]) ∧
    readaco 0 [0, 1, 0, 1, 0, 0, 2, 0, 2, 0, 2, 0, 0, 0] =
      .ok (some ⟨1, 1, [some ⟨2, 2, 2, none⟩]⟩, []) ∧
    mainPalette 0 [0, 1, 0, 1, 0, 0, 1, 0, 1, 0, 1, 0, 0, 0,
                   0, 1, 0, 1, 0, 0, 2, 0, 2, 0, 2, 0, 0, 0] =
      .ok (some ⟨1, 1, [some ⟨2, 2, 2, none⟩]⟩) := by
  refine ⟨rfl, rfl, ?_⟩
  exact (c6_second_set_preferred 0
    [0, 1, 0, 1, 0, 0, 1, 0, 1, 0, 1, 0, 0, 0,
     0, 1, 0, 1, 0, 0, 2, 0, 2, 0, 2, 0, 0, 0]
    [0, 1, 0, 1, 0, 0, 2, 0, 2, 0, 2, 0, 0, 0] []
    (some ⟨1, 1, [some ⟨1, 1, 1, none⟩]⟩)
    (some ⟨1, 1, [some ⟨2, 2, 2, none⟩]⟩) rfl rfl).1
    ⟨1, 1, [some ⟨2, 2, 2, none⟩]⟩ rfl

/-- Claim C7: the program's exit status is always 0 or 1; it is 1 exactly
when a fatal condition occurred — an unexpected end of stream at a
structurally mandatory word (`mustreadword`, mid-record), an
unsatisfiable allocation ("Out of memory!", as forced by the wrapped
color-array size when the count word is `-1`), or a format version other
than 1 or 2 — each carrying its stderr diagnostic; every normal
completion, the "No data!" case included, exits 0. -/
theorem c7_exit_codes (junk : Nat) (s : List Nat) :
    (mainExit junk s = 0 ∨ mainExit junk s = 1) ∧
    (mainExit junk s = 1 ↔ ∃ e, runmain junk s = .error e ∧ diagnosedFatal e) ∧
    (∀ o, runmain junk s = .ok o → mainExit junk s = 0) := by
  refine ⟨?_, ⟨?_, ?_⟩, ?_⟩
  · unfold mainExit
    cases runmain junk s <;> simp
  · intro h1
    cases hr : runmain junk s with
    | error e => exact ⟨e, rfl, runmain_error junk s e hr⟩
    | ok o => unfold mainExit at h1; rw [hr] at h1; simp at h1
  · rintro ⟨e, he, _⟩
    unfold mainExit
    rw [he]
  · intro o ho
    unfold mainExit
    rw [ho]

/-- Witness for C7: the empty stream is the "No data!" case — both
`readaco` calls return NULL — and the exit status is 0. -/
theorem c7_exit_codes_witness :
    runmain 0 [] = .ok none ∧ mainExit 0 [] = 0 :=
  ⟨rfl, (c7_exit_codes 0 []).2.2 none rfl⟩

/-- Claim C9: the grouped nested loop of `gengpl` (outer stride 4, inner
break at `len`) emits exactly the sequential per-entry lines: its output
equals the header followed by one line per index in `0..len-1`, in order
(`gengplSeq`, written from the spec's words as a single sequential loop);
in particular a palette with zero entries prints exactly the 4 header
lines. -/
theorem c9_grouped_loop_equals_sequential (a : aco) :
    gengplOutput a = gengplSeq a ∧
    (a.len = 0 → gengplOutput a = gengplHeader ∧ gengplHeader.length = 4) := by
  refine ⟨gengplOutput_eq_seq a, fun h0 => ⟨?_, rfl⟩⟩
  rw [gengplOutput_eq_seq a]
  unfold gengplSeq
  rw [h0]
  simp

/-- Witness for C9: a palette of two entries (one of them an unassigned
slot) emits header plus one line per slot, and the zero-entry palette
emits exactly the header. -/
theorem c9_grouped_loop_equals_sequential_witness :
    gengplOutput ⟨1, 2, [none, some ⟨18, 255, 0, none⟩]⟩ =
      gengplSeq ⟨1, 2, [none, some ⟨18, 255, 0, none⟩]⟩ ∧
    gengplOutput ⟨1, 0, []⟩ = gengplHeader :=
  ⟨(c9_grouped_loop_equals_sequential ⟨1, 2, [none, some ⟨18, 255, 0, none⟩]⟩).1,
   ((c9_grouped_loop_equals_sequential ⟨1, 0, []⟩).2 rfl).1⟩

/-- Claim C1 fails on the code: in a version-1 set declaring 2 records
whose first is non-RGB (discriminator 1) and whose second is RGB, the
parser keeps `len = 2` — the declared count, not count minus skipped —
and the skipped record leaves its array slot unassigned (an uninitialized
placeholder, `none`), so the entries are not contiguous.  `gengpl` later
reads that slot, i.e. uninitialized memory. -/
theorem c1_skipped_record_leaves_gap :
    readaco 0 [0, 1, 0, 2, 0, 1, 0, 10, 0, 20, 0, 30, 0, 40,
               0, 0, 18, 52, 255, 0, 0, 128, 0, 0] =
      .ok (some ⟨1, 2, [none, some ⟨18, 255, 0, none⟩]⟩, []) ∧
    (2 : Int) ≠ (2 : Int) - 1 ∧
    ([none, some (⟨18, 255, 0, none⟩ : acoentry)] : List (Option acoentry)).length = 2 ∧
    ([none, some (⟨18, 255, 0, none⟩ : acoentry)] : List (Option acoentry)).get? 0 =
      some none := by
  exact ⟨rfl, by decide, rfl, rfl⟩

/-- Claim C2 fails on the code: with exactly one byte remaining, `fread`
returns 1, the `retval == 0` test fails, and `readword` returns a word
assembled from the read byte and the indeterminate `buf[1]` — never the
end-of-stream value `-1`, whatever the indeterminate byte is.  Only the
zero-bytes-remaining case returns `-1`. -/
theorem c2_readword_one_byte_not_eof (junk : Nat) :
    readword junk [65] = (Int.ofNat (65 * 256 + junk % 256), []) ∧
    (readword junk [65]).1 ≠ -1 ∧
    readword junk [] = (-1, []) := by
  refine ⟨rfl, ?_, rfl⟩
  have hfst : (readword junk [65]).1 = Int.ofNat (65 * 256 + junk % 256) := rfl
  rw [hfst]
  simp only [Int.ofNat_eq_natCast]
  omega

/-- Claim C3 fails on the code: a version-1 entry's `name` field is the
NULL pointer (`none`), never the empty string (`some []`), and `gengpl`
hands exactly that NULL pointer to `printf`'s `%s` — behaviour C leaves
undefined (glibc prints the placeholder `(null)` after the trailing
space). -/
theorem c3_version1_name_is_null :
    readaco 0 [0, 1, 0, 1, 0, 0, 18, 52, 255, 0, 0, 128, 0, 0] =
      .ok (some ⟨1, 1, [some ⟨18, 255, 0, none⟩]⟩, []) ∧
    gengplOutput ⟨1, 1, [some ⟨18, 255, 0, none⟩]⟩ =
      gengplHeader ++ [OutLine.color 18 255 0 none] ∧
    (none : Option (List Nat)) ≠ some [] := by
  refine ⟨rfl, ?_, by decide⟩
  rw [gengplOutput_eq_seq]
  rfl
